import Mathlib

/-!
Verification of `useCountdown` (src/packages/core/useCountdown/index.ts).

The countdown controller wraps a periodic-callback scheduler (`useIntervalFn`,
an external collaborator not under src/; its `pause`/`resume`/`isActive`
behaviour is modelled from the spec's collaborator interface) and keeps a
numeric `remaining` value.  We embed the controller as a state machine:

* `CountdownState` holds `remaining` (a JS number used only at integer
  values, embedded as `Int` -- the code never clamps it at construction or
  reset, so it can be negative) and the scheduler's `isActive` flag.
* Each public operation, plus the scheduler-driven `tick`, is an `Event`.
  Operations that re-read the possibly dynamic `initialCountdown` source
  (`reset`, `stop`, `start`) carry the value that `toValue(initialCountdown)`
  resolves to at that moment.  `start` also carries its declared optional
  override argument, which the implementation body never reads.
* `step` executes one event, reporting whether the user callbacks `onTick`
  and `onComplete` were invoked during it.
-/

namespace Countdown

/-- State of a countdown controller: the `remaining` ref and the scheduler's
`isActive` flag. -/
structure CountdownState where
  remaining : Int
  isActive : Bool
deriving Repr, DecidableEq

/-- Events on the controller.  `tick` is the scheduler-invoked interval
callback; the rest are the public operations.  `reset`, `stop` and `start`
carry the value resolved from the (possibly dynamic) `initialCountdown`
source at the time of the call; `start` additionally carries the optional
override argument declared in `UseCountdownReturn.start`. -/
inductive Event where
  | tick
  | pause
  | resume
  | reset (v : Int)
  | stop (v : Int)
  | start (v : Int) (override : Option Int)
deriving Repr, DecidableEq

/-- Result of one event: the next state, and whether `onTick` / `onComplete`
were invoked during the event. -/
structure StepOut where
  state : CountdownState
  onTickFired : Bool
  onCompleteFired : Bool
deriving Repr, DecidableEq

/-- The interval callback passed to `useIntervalFn`:
`const value = remaining.value - 1; remaining.value = value < 0 ? 0 : value;
options?.onTick?.(); if (remaining.value <= 0) { intervalController.pause();
onComplete.value?.() }`.  The scheduler invokes it only while active, so an
inactive state is left untouched and no callback fires. -/
def tickStep (s : CountdownState) : StepOut :=
  if s.isActive then
    let value := s.remaining - 1
    let r : Int := if value < 0 then 0 else value
    if r ≤ 0 then
      ⟨⟨r, false⟩, true, true⟩
    else
      ⟨⟨r, true⟩, true, false⟩
  else
    ⟨s, false, false⟩

/-- One event of the controller.  `pause` delegates to the scheduler's pause;
`resume` is the guarded wrapper (`if (!isActive) { if (remaining > 0)
resume() }`); `reset` writes `toValue(initialCountdown)`; `stop` pauses then
resets; `start` resets then calls the scheduler's resume unconditionally,
ignoring its declared override parameter (the implementation closure takes no
argument). -/
def step (s : CountdownState) : Event → StepOut
  | .tick => tickStep s
  | .pause => ⟨⟨s.remaining, false⟩, false, false⟩
  | .resume =>
      if s.isActive then ⟨s, false, false⟩
      else if 0 < s.remaining then ⟨⟨s.remaining, true⟩, false, false⟩
      else ⟨s, false, false⟩
  | .reset v => ⟨⟨v, s.isActive⟩, false, false⟩
  | .stop v => ⟨⟨v, false⟩, false, false⟩
  | .start v _ => ⟨⟨v, true⟩, false, false⟩

/-- State immediately after construction:
`remaining = ref(toValue(initialCountdown))`, and the scheduler is created
with `{ immediate: options?.immediate ?? false }`, so it is running exactly
when `immediate` is true (`useIntervalFn` does not look at `remaining`). -/
def init (v : Int) (immediate : Bool) : CountdownState :=
  ⟨v, immediate⟩

/-- Run a sequence of events from a state. -/
def run (s : CountdownState) : List Event → CountdownState
  | [] => s
  | e :: es => run (step s e).state es

/-- Number of `onComplete` invocations along a sequence of events. -/
def completes (s : CountdownState) : List Event → Nat
  | [] => 0
  | e :: es =>
      (if (step s e).onCompleteFired then 1 else 0) + completes (step s e).state es

/-- A sequence of `k` scheduler ticks. -/
def ticks (k : Nat) : List Event :=
  List.replicate k Event.tick

/-- Nonnegativity of the value carried by an event (trivially true for
events that do not re-read the initial-value source). -/
def eventNonneg : Event → Bool
  | .reset v => decide (0 ≤ v)
  | .stop v => decide (0 ≤ v)
  | .start v _ => decide (0 ≤ v)
  | _ => true

/-- Positivity of the values carried by the events that can leave the
scheduler running with a non-positive counter: `reset` (while running) and
`start`. -/
def eventPos : Event → Bool
  | .reset v => decide (0 < v)
  | .start v _ => decide (0 < v)
  | _ => true

theorem run_cons (s : CountdownState) (e : Event) (es : List Event) :
    run s (e :: es) = run (step s e).state es := rfl

theorem tick_inactive (s : CountdownState) (h : s.isActive = false) :
    step s .tick = ⟨s, false, false⟩ := by
  simp [step, tickStep, h]

theorem tickStep_low (r : Int) (h : r ≤ 1) :
    step ⟨r, true⟩ .tick = ⟨⟨0, false⟩, true, true⟩ := by
  simp only [step, tickStep]
  split_ifs with h1 h2 h3 <;> simp_all <;> omega

theorem tickStep_high (r : Int) (h : 1 < r) :
    step ⟨r, true⟩ .tick = ⟨⟨r - 1, true⟩, true, false⟩ := by
  simp only [step, tickStep]
  split_ifs with h1 h2 h3 <;> simp_all <;> omega

theorem run_inactive_ticks (k : Nat) : ∀ s : CountdownState, s.isActive = false →
    run s (ticks k) = s := by
  induction k with
  | zero => intro s _; rfl
  | succ k ih =>
      intro s hs
      rw [ticks, List.replicate_succ, run_cons, tick_inactive s hs]
      exact ih s hs

theorem run_ticks_remaining (k : Nat) : ∀ (N : Int) (b : Bool), 0 ≤ N →
    (run ⟨N, b⟩ (ticks k)).remaining = if b then max (N - (k : Int)) 0 else N := by
  induction k with
  | zero =>
      intro N b hN
      cases b <;> simp [ticks, run] <;> omega
  | succ k ih =>
      intro N b hN
      cases b with
      | false =>
          rw [run_inactive_ticks (k + 1) ⟨N, false⟩ rfl]
          simp
      | true =>
          rw [ticks, List.replicate_succ, run_cons]
          by_cases hsmall : N ≤ 1
          · rw [tickStep_low N hsmall]
            rw [show (⟨⟨0, false⟩, true, true⟩ : StepOut).state = ⟨0, false⟩ from rfl]
            rw [show List.replicate k Event.tick = ticks k from rfl]
            rw [run_inactive_ticks k ⟨0, false⟩ rfl]
            simp
            omega
          · rw [tickStep_high N (by omega)]
            rw [show (⟨⟨N - 1, true⟩, true, false⟩ : StepOut).state = ⟨N - 1, true⟩ from rfl]
            have h := ih (N - 1) true (by omega)
            rw [ticks] at h
            rw [h]
            simp
            omega

theorem completes_inactive (k : Nat) : ∀ s : CountdownState, s.isActive = false →
    completes s (ticks k) = 0 := by
  induction k with
  | zero => intro s _; rfl
  | succ k ih =>
      intro s hs
      rw [ticks, List.replicate_succ]
      simp only [completes, tick_inactive s hs]
      have h := ih s hs
      rw [ticks] at h
      simpa using h

theorem completes_clean (k : Nat) : ∀ N : Int, 0 < N →
    completes ⟨N, true⟩ (ticks k) = if (N : Int) ≤ (k : Int) then 1 else 0 := by
  induction k with
  | zero =>
      intro N hN
      rw [if_neg (by omega)]
      rfl
  | succ k ih =>
      intro N hN
      rw [ticks, List.replicate_succ]
      by_cases h1 : N ≤ 1
      · have hN1 : N = 1 := by omega
        subst hN1
        simp only [completes, tickStep_low 1 (by omega)]
        have h0 := completes_inactive k ⟨0, false⟩ rfl
        rw [ticks] at h0
        rw [h0]
        by_cases hk : (1 : Int) ≤ ((k + 1 : Nat) : Int)
        · rw [if_pos hk]
          norm_num
        · exact absurd (by omega) hk
      · simp only [completes, tickStep_high N (by omega)]
        have h := ih (N - 1) (by omega)
        rw [ticks] at h
        rw [h]
        simp only [Bool.false_eq_true, if_false, Nat.zero_add]
        split_ifs <;> omega

theorem fired_only_tick (s : CountdownState) (e : Event) :
    (step s e).onCompleteFired = true → e = Event.tick := by
  cases e with
  | tick => intro _; rfl
  | pause => intro h; simp [step] at h
  | resume => intro h; simp only [step] at h; split_ifs at h
  | reset v => intro h; simp [step] at h
  | stop v => intro h; simp [step] at h
  | start v o => intro h; simp [step] at h

theorem fired_tick_state (s : CountdownState)
    (hf : (step s .tick).onCompleteFired = true) :
    (step s .tick).state.isActive = false ∧ (step s .tick).state.remaining = 0 := by
  obtain ⟨r, b⟩ := s
  cases b with
  | false => rw [tick_inactive ⟨r, false⟩ rfl] at hf; simp at hf
  | true =>
      by_cases h1 : r ≤ 1
      · rw [tickStep_low r h1]
        exact ⟨rfl, rfl⟩
      · rw [tickStep_high r (by omega)] at hf
        simp at hf

theorem step_nonneg (s : CountdownState) (e : Event)
    (hs : 0 ≤ s.remaining) (he : eventNonneg e = true) :
    0 ≤ (step s e).state.remaining := by
  obtain ⟨r, b⟩ := s
  cases e with
  | tick =>
      cases b with
      | false => rw [tick_inactive ⟨r, false⟩ rfl]; exact hs
      | true =>
          by_cases h1 : r ≤ 1
          · rw [tickStep_low r h1]
          · rw [tickStep_high r (by omega)]
            show (0 : Int) ≤ r - 1
            omega
  | pause => exact hs
  | resume =>
      simp only [step]
      split_ifs
      all_goals exact hs
  | reset v => exact of_decide_eq_true he
  | stop v => exact of_decide_eq_true he
  | start v o => exact of_decide_eq_true he

theorem run_nonneg (es : List Event) : ∀ s : CountdownState, 0 ≤ s.remaining →
    es.all eventNonneg = true → 0 ≤ (run s es).remaining := by
  induction es with
  | nil => intro s hs _; exact hs
  | cons e es ih =>
      intro s hs hall
      rw [List.all_cons, Bool.and_eq_true] at hall
      rw [run_cons]
      exact ih (step s e).state (step_nonneg s e hs hall.1) hall.2

theorem step_actPos (s : CountdownState) (e : Event)
    (hs : s.isActive = true → 0 < s.remaining) (he : eventPos e = true) :
    (step s e).state.isActive = true → 0 < (step s e).state.remaining := by
  obtain ⟨r, b⟩ := s
  cases e with
  | tick =>
      cases b with
      | false => rw [tick_inactive ⟨r, false⟩ rfl]; exact hs
      | true =>
          have hr : 0 < r := hs rfl
          by_cases h1 : r ≤ 1
          · rw [tickStep_low r h1]
            intro h
            exact absurd h (by simp)
          · rw [tickStep_high r (by omega)]
            intro _
            show (0 : Int) < r - 1
            omega
  | pause => intro h; simp [step] at h
  | resume =>
      simp only [step]
      split_ifs with hb hr
      · exact hs
      · intro _; exact hr
      · intro h; exact absurd h hb
  | reset v => intro _; exact of_decide_eq_true he
  | stop v => intro h; simp [step] at h
  | start v o => intro _; exact of_decide_eq_true he

theorem run_actPos (es : List Event) : ∀ s : CountdownState,
    (s.isActive = true → 0 < s.remaining) → es.all eventPos = true →
    (run s es).isActive = true → 0 < (run s es).remaining := by
  induction es with
  | nil => intro s hs _; exact hs
  | cons e es ih =>
      intro s hs hall
      rw [List.all_cons, Bool.and_eq_true] at hall
      rw [run_cons]
      exact ih (step s e).state (step_actPos s e hs hall.1) hall.2

/-- C1. For every initial countdown value N ≥ 0 and every number k of tick
invocations with no intervening reset, stop or start, `remaining` after the
k ticks equals max (N - k) 0; since k ranges over every prefix length,
`remaining` never becomes negative during the sequence. -/
theorem remaining_after_ticks (N : Int) (k : Nat) (h : 0 ≤ N) :
    (run ⟨N, true⟩ (ticks k)).remaining = max (N - (k : Int)) 0 ∧
    0 ≤ (run ⟨N, true⟩ (ticks k)).remaining := by
  have hr := run_ticks_remaining k N true h
  rw [if_pos rfl] at hr
  exact ⟨hr, by rw [hr]; exact le_max_right _ _⟩

theorem remaining_after_ticks_witness :
    0 ≤ (3 : Int) ∧
    ((run ⟨3, true⟩ (ticks 5)).remaining = max ((3 : Int) - ((5 : Nat) : Int)) 0 ∧
     0 ≤ (run ⟨3, true⟩ (ticks 5)).remaining) :=
  ⟨by decide, remaining_after_ticks 3 5 (by decide)⟩

/-- C2 counterexample. After `start` resolves the initial value to 0 the
scheduler is running, so a run has begun, and the very next tick invokes
`onComplete` although `remaining` was not positive before the tick: the
claim that `onComplete` fires precisely on a positive-to-zero transition
fails on this run. -/
theorem complete_fires_without_positive_transition :
    (step (init 3 false) (.start 0 none)).state.isActive = true ∧
    (step (init 3 false) (.start 0 none)).state.remaining = 0 ∧
    ¬ 0 < (step (init 3 false) (.start 0 none)).state.remaining ∧
    (step (step (init 3 false) (.start 0 none)).state .tick).onCompleteFired = true := by
  decide

/-- C2 amended. `onComplete` can fire only during a tick, and when it fires
the scheduler is already paused and `remaining` is 0, so it fires at most
once per run, always on the run's final tick; a tick-only run begun with
`remaining = N > 0` fires it exactly once as soon as the run reaches N
ticks and never before; on a tick from `remaining = 1` (the last positive
value of such a run) it fires with a positive-to-zero transition.  Runs
begun or reset to a non-positive value may instead fire it on a tick whose
previous value was already 0, and runs cut short by `pause` or `stop` do
not fire it. -/
theorem onComplete_once_per_clean_run (N : Int) (k : Nat) (s : CountdownState)
    (e : Event) (hN : 0 < N) :
    completes ⟨N, true⟩ (ticks k) = (if (N : Int) ≤ (k : Int) then 1 else 0) ∧
    ((step s e).onCompleteFired = true →
      e = Event.tick ∧ (step s e).state.isActive = false ∧
      (step s e).state.remaining = 0) ∧
    (s.isActive = true → s.remaining = 1 →
      (step s Event.tick).onCompleteFired = true ∧ 0 < s.remaining ∧
      (step s Event.tick).state.remaining = 0) := by
  refine ⟨completes_clean k N hN, ?_, ?_⟩
  · intro hf
    have he := fired_only_tick s e hf
    subst he
    exact ⟨rfl, (fired_tick_state s hf).1, (fired_tick_state s hf).2⟩
  · intro hA h1
    obtain ⟨r, b⟩ := s
    have hb : b = true := hA
    have hr : r = 1 := h1
    subst hb
    subst hr
    rw [tickStep_low 1 (by omega)]
    exact ⟨rfl, by decide, rfl⟩

theorem onComplete_once_witness :
    0 < (2 : Int) ∧
    (completes ⟨2, true⟩ (ticks 5) = (if ((2 : Int) ≤ ((5 : Nat) : Int)) then 1 else 0) ∧
     ((step (⟨1, true⟩ : CountdownState) Event.tick).onCompleteFired = true →
       Event.tick = Event.tick ∧
       (step (⟨1, true⟩ : CountdownState) Event.tick).state.isActive = false ∧
       (step (⟨1, true⟩ : CountdownState) Event.tick).state.remaining = 0) ∧
     ((⟨1, true⟩ : CountdownState).isActive = true →
       (⟨1, true⟩ : CountdownState).remaining = 1 →
       (step (⟨1, true⟩ : CountdownState) Event.tick).onCompleteFired = true ∧
       0 < (⟨1, true⟩ : CountdownState).remaining ∧
       (step (⟨1, true⟩ : CountdownState) Event.tick).state.remaining = 0)) :=
  ⟨by decide, onComplete_once_per_clean_run 2 5 ⟨1, true⟩ Event.tick (by decide)⟩

/-- C3 counterexample. The configured initial value is written to
`remaining` unclamped, so constructing with a negative initial value yields
a reachable state (the state immediately after construction) whose
`remaining` is negative, refuting the unconditional invariant. -/
theorem construction_negative_remaining : (init (-1) false).remaining < 0 := by
  decide

/-- C3 amended. Provided the configured initial value is nonnegative at
construction and at every re-evaluation performed by reset, stop or start,
every reachable state of the controller satisfies `remaining ≥ 0` (ticks
clamp at 0 and need no proviso). -/
theorem remaining_nonneg_of_nonneg_inputs (v : Int) (imm : Bool) (es : List Event)
    (hv : 0 ≤ v) (hes : es.all eventNonneg = true) :
    0 ≤ (run (init v imm) es).remaining :=
  run_nonneg es (init v imm) hv hes

theorem remaining_nonneg_witness :
    (0 ≤ (5 : Int) ∧ [Event.tick, Event.stop 2, Event.tick].all eventNonneg = true) ∧
    0 ≤ (run (init 5 true) [Event.tick, Event.stop 2, Event.tick]).remaining :=
  ⟨⟨by decide, by decide⟩,
    remaining_nonneg_of_nonneg_inputs 5 true [Event.tick, Event.stop 2, Event.tick]
      (by decide) (by decide)⟩

/-- C4 counterexample. `start` resumes the scheduler unconditionally after
resetting, so when the re-evaluated initial value is 0 the controller
reaches a state with `isActive` true and `remaining ≤ 0`. -/
theorem running_with_zero_remaining :
    (step (init 3 false) (.start 0 (some 5))).state.isActive = true ∧
    (step (init 3 false) (.start 0 (some 5))).state.remaining ≤ 0 := by
  decide

/-- C4 amended. Provided construction with `immediate` true and every value
resolved by `start` or `reset` is positive, every reachable state satisfies
`isActive = true → remaining > 0`; without that proviso, `start` (or
immediate construction, or `reset` while running) with a non-positive value
leaves the scheduler running with `remaining ≤ 0` until the next tick
pauses it. -/
theorem active_implies_pos_of_pos_inputs (v : Int) (imm : Bool) (es : List Event)
    (hv : imm = true → 0 < v) (hes : es.all eventPos = true)
    (hA : (run (init v imm) es).isActive = true) :
    0 < (run (init v imm) es).remaining :=
  run_actPos es (init v imm) hv hes hA

theorem active_implies_pos_witness :
    ((true = true → 0 < (3 : Int)) ∧
     [Event.tick, Event.reset 2, Event.start 4 none].all eventPos = true ∧
     (run (init 3 true) [Event.tick, Event.reset 2, Event.start 4 none]).isActive = true) ∧
    0 < (run (init 3 true) [Event.tick, Event.reset 2, Event.start 4 none]).remaining :=
  ⟨⟨by decide, by decide, by decide⟩,
    active_implies_pos_of_pos_inputs 3 true [Event.tick, Event.reset 2, Event.start 4 none]
      (by decide) (by decide) (by decide)⟩

/-- C5. `start` from any state leaves the controller running with
`remaining` equal to the re-evaluated configured initial value, whatever the
prior state, and the declared optional override argument is ignored: the
step's outcome is identical for every override. -/
theorem start_runs_with_reset_value (s : CountdownState) (v : Int) (o : Option Int) :
    (step s (.start v o)).state.isActive = true ∧
    (step s (.start v o)).state.remaining = v ∧
    step s (.start v o) = step s (.start v none) :=
  ⟨rfl, rfl, rfl⟩

theorem start_runs_witness :
    (step (init 7 false) (.start 4 (some 99))).state.isActive = true ∧
    (step (init 7 false) (.start 4 (some 99))).state.remaining = 4 ∧
    step (init 7 false) (.start 4 (some 99)) = step (init 7 false) (.start 4 none) :=
  start_runs_with_reset_value (init 7 false) 4 (some 99)

/-- C6. `stop` from any state leaves the controller idle with `remaining`
equal to the re-evaluated configured initial value, regardless of the prior
running state and prior value. -/
theorem stop_idles_with_reset_value (s : CountdownState) (v : Int) :
    (step s (.stop v)).state.isActive = false ∧
    (step s (.stop v)).state.remaining = v :=
  ⟨rfl, rfl⟩

theorem stop_idles_witness :
    (step (⟨1, true⟩ : CountdownState) (.stop 9)).state.isActive = false ∧
    (step (⟨1, true⟩ : CountdownState) (.stop 9)).state.remaining = 9 :=
  stop_idles_with_reset_value ⟨1, true⟩ 9

/-- C7. `resume` when `remaining` is 0 is a no-op: the state is unchanged
(so an idle controller stays idle) and no callback fires. -/
theorem resume_noop_at_zero (s : CountdownState) (h : s.remaining = 0) :
    step s .resume = ⟨s, false, false⟩ := by
  obtain ⟨r, b⟩ := s
  have hr : r = 0 := h
  subst hr
  cases b <;> decide

theorem resume_noop_witness :
    (init 0 false).remaining = 0 ∧
    step (init 0 false) .resume = ⟨init 0 false, false, false⟩ :=
  ⟨rfl, resume_noop_at_zero (init 0 false) rfl⟩

/-- C8. `reset` sets `remaining` to the re-evaluated configured initial
value and changes nothing else: `isActive` is unchanged whether the
controller was running or idle, and no callback fires. -/
theorem reset_only_sets_remaining (s : CountdownState) (v : Int) :
    (step s (.reset v)).state.remaining = v ∧
    (step s (.reset v)).state.isActive = s.isActive ∧
    (step s (.reset v)).onTickFired = false ∧
    (step s (.reset v)).onCompleteFired = false :=
  ⟨rfl, rfl, rfl, rfl⟩

theorem reset_only_witness :
    (step (⟨2, true⟩ : CountdownState) (.reset 6)).state.remaining = 6 ∧
    (step (⟨2, true⟩ : CountdownState) (.reset 6)).state.isActive =
      (⟨2, true⟩ : CountdownState).isActive ∧
    (step (⟨2, true⟩ : CountdownState) (.reset 6)).onTickFired = false ∧
    (step (⟨2, true⟩ : CountdownState) (.reset 6)).onCompleteFired = false :=
  reset_only_sets_remaining ⟨2, true⟩ 6

/-- C9 counterexample. The scheduler is created with
`{ immediate: options?.immediate ?? false }` and does not consult
`remaining`, so constructing with `immediate` true and initial value 0
yields a running controller with `remaining` not positive, refuting the
claimed characterization of the initial state. -/
theorem immediate_with_zero_is_running :
    (init 0 true).isActive = true ∧ ¬ 0 < (init 0 true).remaining := by
  decide

/-- C9 amended. Immediately after construction the controller is running
iff `immediate` is true, with no condition on `remaining`; `remaining`
equals the resolved initial value; and while the scheduler is inactive a
tick event changes nothing and fires no callback, so with the default
`immediate = false` no ticks occur until `start` or `resume`. -/
theorem construction_state (v : Int) (imm : Bool) (s : CountdownState)
    (hs : s.isActive = false) :
    (init v imm).isActive = imm ∧ (init v imm).remaining = v ∧
    step s .tick = ⟨s, false, false⟩ :=
  ⟨rfl, rfl, tick_inactive s hs⟩

theorem construction_state_witness :
    (⟨8, false⟩ : CountdownState).isActive = false ∧
    ((init 8 false).isActive = false ∧ (init 8 false).remaining = 8 ∧
     step (⟨8, false⟩ : CountdownState) .tick = ⟨⟨8, false⟩, false, false⟩) :=
  ⟨rfl, construction_state 8 false ⟨8, false⟩ rfl⟩

/-- C10. A tick with `remaining = 0` (reachable: `start` resolving the
initial value to 0 leaves the scheduler running with `remaining = 0`)
keeps `remaining` at 0, still invokes `onTick`, pauses the scheduler, and
invokes `onComplete` again; over a lifetime `onComplete` can therefore fire
twice, the second time on a tick whose previous value was not positive. -/
theorem tick_at_zero (s : CountdownState) (hA : s.isActive = true)
    (h0 : s.remaining = 0) :
    step s .tick = ⟨⟨0, false⟩, true, true⟩ ∧
    (step (init 6 false) (.start 0 none)).state.isActive = true ∧
    (step (init 6 false) (.start 0 none)).state.remaining = 0 ∧
    completes (init 1 true) [Event.tick, Event.start 0 none, Event.tick] = 2 := by
  refine ⟨?_, rfl, rfl, by decide⟩
  obtain ⟨r, b⟩ := s
  have hb : b = true := hA
  have hr : r = 0 := h0
  subst hb
  subst hr
  exact tickStep_low 0 (by decide)

theorem tick_at_zero_witness :
    ((⟨0, true⟩ : CountdownState).isActive = true ∧
     (⟨0, true⟩ : CountdownState).remaining = 0) ∧
    (step (⟨0, true⟩ : CountdownState) .tick = ⟨⟨0, false⟩, true, true⟩ ∧
     (step (init 6 false) (.start 0 none)).state.isActive = true ∧
     (step (init 6 false) (.start 0 none)).state.remaining = 0 ∧
     completes (init 1 true) [Event.tick, Event.start 0 none, Event.tick] = 2) :=
  ⟨⟨rfl, rfl⟩, tick_at_zero ⟨0, true⟩ rfl rfl⟩

end Countdown
